import Mathlib

/-
Verification of the reaction-time test program (src/reaction_time.py).

Reaction times are modelled as rationals (Python floats carrying millisecond
values; all the decision logic is order comparisons and exact arithmetic on
small decimals, which ℚ models exactly). Fallible code paths (Python
exceptions: max()/min() of an empty list, division by zero, a missing file,
an unparsable CSV field) are modelled with Option.
-/

namespace ReactionTime

/-- The interpretive insights appended by get_interpretation, one constructor
per distinct message string in the source. -/
inductive Insight where
  | morning
  | afternoonDip
  | lateNight
  | veryConsistent
  | normalVariability
  | highVariability
  | practiceEffect
  | fatigueEffect
deriving DecidableEq, Repr

/-- calculate_percentile (src lines 7-21): first-match-wins threshold table on
the average reaction time. -/
def calculate_percentile (rt : ℚ) : ℕ × String :=
  if rt < 180 then (99, "Exceptional - faster than 99% of people")
  else if rt < 200 then (95, "Excellent - faster than 95% of people")
  else if rt < 230 then (85, "Above average")
  else if rt < 270 then (50, "Average")
  else if rt < 320 then (25, "Below average")
  else (10, "Slow - you might be tired!")

/-- Python max(x :: xs): left fold of max over a nonempty list. -/
def listMax (x : ℚ) (xs : List ℚ) : ℚ := xs.foldl max x

/-- Python min(x :: xs): left fold of min over a nonempty list. -/
def listMin (x : ℚ) (xs : List ℚ) : ℚ := xs.foldl min x

/-- Time-of-day block of get_interpretation (src lines 29-35); hour is the
value of datetime.now().hour at analysis time. -/
def time_insight (hour : ℕ) : List Insight :=
  if 6 ≤ hour ∧ hour < 10 then [Insight.morning]
  else if 14 ≤ hour ∧ hour < 16 then [Insight.afternoonDip]
  else if 22 ≤ hour ∨ hour < 6 then [Insight.lateNight]
  else []

/-- Variability block of get_interpretation (src lines 37-44) on a nonempty
trial list r :: rs: variability = max - min, thresholded at 30 and 60. -/
def variability_insight (r : ℚ) (rs : List ℚ) : Insight :=
  let variability := listMax r rs - listMin r rs
  if variability < 30 then Insight.veryConsistent
  else if variability < 60 then Insight.normalVariability
  else Insight.highVariability

/-- First-half average of the learning-effect block (src line 47):
sum(trial_rts[:n//2]) / (n//2), with Nat floor division for the split point. -/
def firstHalfAvg (l : List ℚ) : ℚ :=
  (l.take (l.length / 2)).sum / ((l.length / 2 : ℕ) : ℚ)

/-- Second-half average of the learning-effect block (src line 48):
sum(trial_rts[n//2:]) / (n - n//2). -/
def secondHalfAvg (l : List ℚ) : ℚ :=
  (l.drop (l.length / 2)).sum / ((l.length - l.length / 2 : ℕ) : ℚ)

/-- Learning-effect block of get_interpretation (src lines 50-53): strict
comparisons against a 15 ms margin, practice branch checked first. -/
def learning_insight (l : List ℚ) : List Insight :=
  if secondHalfAvg l < firstHalfAvg l - 15 then [Insight.practiceEffect]
  else if firstHalfAvg l + 15 < secondHalfAvg l then [Insight.fatigueEffect]
  else []

/-- get_interpretation (src lines 23-55). avg_rt and time_of_day are the
(unused) source parameters; hour models the datetime.now().hour read on
line 29. Returns none where the Python function raises: on an empty list
(max() of empty) and when len(trial_rts)//2 = 0 (ZeroDivisionError on
line 47), i.e. on lists of fewer than 2 trials. -/
def get_interpretation (avg_rt : ℚ) (time_of_day : ℕ) (trial_rts : List ℚ)
    (hour : ℕ) : Option (List Insight) :=
  match trial_rts with
  | [] => none
  | r :: rs =>
      if (r :: rs).length / 2 = 0 then none
      else some (time_insight hour ++ [variability_insight r rs]
        ++ learning_insight (r :: rs))

/-- load_history (src lines 65-84). The backing CSV file is modelled as
Option (List (Option ℚ)): none for a missing file; each row carries the
parse result of its avg_rt_ms field, with none for a non-numeric value
(the except branch that silently skips the row). Returns the parsed
averages with the trailing entry dropped when more than one parsed,
otherwise none. -/
def load_history (store : Option (List (Option ℚ))) : Option (List ℚ) :=
  match store with
  | none => none
  | some rows =>
      let all_averages := rows.filterMap id
      if 1 < all_averages.length then some all_averages.dropLast
      else none

/-- Round to the nearest integer, ties to even: the rounding CPython float
formatting applies to the exact value of the double being printed. -/
def round_half_even (q : ℚ) : ℤ :=
  if q - ⌊q⌋ < 1/2 then ⌊q⌋
  else if (1 : ℚ)/2 < q - ⌊q⌋ then ⌊q⌋ + 1
  else if ⌊q⌋ % 2 = 0 then ⌊q⌋ else ⌊q⌋ + 1

/-- The one-decimal formatting of src line 192 (the :.1f format spec applied
to avg_rt): the stored value is the average rounded to the nearest tenth,
ties to even. -/
def round1 (q : ℚ) : ℚ := (round_half_even (10 * q) : ℚ) / 10

/-- save_results (src lines 176-196) at the level load_history observes:
appends one row whose avg_rt_ms field holds the one-decimal formatting of
the session average (src line 192) to the existing rows (creating the store
from nothing when the file is missing; the header row is not a data row).
results is the raw trial list written into the all_trials_ms field, which
load_history never reads. -/
def save_results (store : Option (List (Option ℚ))) (results : List ℚ)
    (avg_rt : ℚ) : List (Option ℚ) :=
  store.getD [] ++ [some (round1 avg_rt)]

/-- Session average computed in reaction_time_test (src line 126):
sum(results) / len(results). -/
def session_average (l : List ℚ) : ℚ := l.sum / (l.length : ℚ)

/-- Outcome of the history comparison printed by reaction_time_test. -/
inductive BaselineFlag where
  | faster
  | slower
  | consistent
deriving DecidableEq, Repr

/-- History-comparison branch of reaction_time_test (src lines 156-165):
diff = todays average minus the mean of the loaded history; faster when
diff < -10, slower when diff > 10, else consistent. -/
def history_comparison (avg_rt : ℚ) (history : List ℚ) : BaselineFlag :=
  let personal_avg := history.sum / (history.length : ℚ)
  let diff := avg_rt - personal_avg
  if diff < -10 then BaselineFlag.faster
  else if 10 < diff then BaselineFlag.slower
  else BaselineFlag.consistent

/-- C2: for every average reaction time v, calculate_percentile returns the
first matching entry of the ordered threshold table (strict-less-than
semantics), and the boundary values 179.9 / 180.0 / 199.9 / 200.0 map to the
documented adjacent buckets exactly. -/
theorem calculate_percentile_buckets (v : ℚ) :
    (calculate_percentile v = (99, "Exceptional - faster than 99% of people")
      ↔ v < 180) ∧
    (calculate_percentile v = (95, "Excellent - faster than 95% of people")
      ↔ 180 ≤ v ∧ v < 200) ∧
    (calculate_percentile v = (85, "Above average") ↔ 200 ≤ v ∧ v < 230) ∧
    (calculate_percentile v = (50, "Average") ↔ 230 ≤ v ∧ v < 270) ∧
    (calculate_percentile v = (25, "Below average") ↔ 270 ≤ v ∧ v < 320) ∧
    (calculate_percentile v = (10, "Slow - you might be tired!") ↔ 320 ≤ v) ∧
    (calculate_percentile (1799/10)).1 = 99 ∧
    (calculate_percentile 180).1 = 95 ∧
    (calculate_percentile (1999/10)).1 = 95 ∧
    (calculate_percentile 200).1 = 85 := by
  refine ⟨?_, ?_, ?_, ?_, ?_, ?_, by norm_num [calculate_percentile],
    by norm_num [calculate_percentile], by norm_num [calculate_percentile],
    by norm_num [calculate_percentile]⟩ <;>
    unfold calculate_percentile <;> split_ifs <;> simp [Prod.ext_iff] <;>
    first
      | linarith
      | (constructor <;> linarith)
      | (intros; linarith)

/-- Every element of a nonempty list is at most its listMax. -/
lemma mem_le_listMax (x : ℚ) (xs : List ℚ) :
    ∀ y ∈ x :: xs, y ≤ listMax x xs := by
  have haux : ∀ (w : ℚ) (ws : List ℚ), w ≤ listMax w ws := by
    intro w ws
    induction ws generalizing w with
    | nil => exact le_refl w
    | cons a as iha =>
        calc w ≤ max w a := le_max_left w a
          _ ≤ listMax (max w a) as := iha (max w a)
  induction xs generalizing x with
  | nil =>
      intro y hy
      rcases List.mem_singleton.mp hy with rfl
      exact le_refl y
  | cons z zs ih =>
      intro y hy
      have hstep : listMax x (z :: zs) = listMax (max x z) zs := rfl
      rcases List.mem_cons.mp hy with rfl | hy2
      · rw [hstep]
        calc y ≤ max y z := le_max_left y z
          _ ≤ listMax (max y z) zs := haux _ _
      · rcases List.mem_cons.mp hy2 with rfl | hy3
        · rw [hstep]
          calc y ≤ max x y := le_max_right x y
            _ ≤ listMax (max x y) zs := haux _ _
        · rw [hstep]
          exact ih (max x z) y (List.mem_cons_of_mem _ hy3)

/-- The listMin of a nonempty list is at most every element. -/
lemma listMin_le_mem (x : ℚ) (xs : List ℚ) :
    ∀ y ∈ x :: xs, listMin x xs ≤ y := by
  have haux : ∀ (w : ℚ) (ws : List ℚ), listMin w ws ≤ w := by
    intro w ws
    induction ws generalizing w with
    | nil => exact le_refl w
    | cons a as iha =>
        calc listMin (min w a) as ≤ min w a := iha (min w a)
          _ ≤ w := min_le_left w a
  induction xs generalizing x with
  | nil =>
      intro y hy
      rcases List.mem_singleton.mp hy with rfl
      exact le_refl y
  | cons z zs ih =>
      intro y hy
      have hstep : listMin x (z :: zs) = listMin (min x z) zs := rfl
      rcases List.mem_cons.mp hy with rfl | hy2
      · rw [hstep]
        calc listMin (min y z) zs ≤ min y z := haux _ _
          _ ≤ y := min_le_left y z
      · rcases List.mem_cons.mp hy2 with rfl | hy3
        · rw [hstep]
          calc listMin (min x y) zs ≤ min x y := haux _ _
            _ ≤ y := min_le_right x y
        · rw [hstep]
          exact ih (min x z) y (List.mem_cons_of_mem _ hy3)

/-- C7: for every non-empty trial sequence, the session average computed by
reaction_time_test lies within the closed interval of the fastest (min) and
slowest (max) trial. -/
theorem session_average_between_min_max (r : ℚ) (rs : List ℚ) :
    listMin r rs ≤ session_average (r :: rs) ∧
    session_average (r :: rs) ≤ listMax r rs := by
  have hlen : (0 : ℚ) < ((r :: rs).length : ℚ) := by
    simp only [List.length_cons]
    push_cast
    positivity
  constructor
  · have h := List.card_nsmul_le_sum (r :: rs) (listMin r rs)
      (listMin_le_mem r rs)
    rw [nsmul_eq_mul] at h
    rw [session_average, le_div_iff₀ hlen]
    linarith [h]
  · have h := List.sum_le_card_nsmul (r :: rs) (listMax r rs)
      (mem_le_listMax r rs)
    rw [nsmul_eq_mul] at h
    rw [session_average, div_le_iff₀ hlen]
    linarith [h]

/-- C4: load_history on three stored averages drops the trailing row; on a
single usable average or a missing file it returns none; a row whose average
field is non-numeric (the none row) is skipped silently. -/
theorem load_history_concrete_cases :
    load_history (some [some 50, some 60, some 70]) = some [50, 60] ∧
    load_history (some [some 50]) = none ∧
    load_history none = none ∧
    load_history (some [some 50, none, some 60, some 70]) = some [50, 60] :=
  ⟨rfl, rfl, rfl, rfl⟩

/-- C10: whenever load_history returns a usable result, that list holds at
least one prior average (it is never the empty list). -/
theorem load_history_result_nonempty (store : Option (List (Option ℚ)))
    (l : List ℚ) (h : load_history store = some l) : 1 ≤ l.length := by
  match store with
  | none => simp [load_history] at h
  | some rows =>
      simp only [load_history] at h
      split at h
      · next hlen =>
          cases h
          simp only [List.length_dropLast]
          omega
      · cases h

/-- Witness for C10 at the concrete store [some 1, some 2]. -/
theorem load_history_result_nonempty_witness :
    load_history (some [some 1, some 2]) = some [1] ∧
    1 ≤ ([(1 : ℚ)]).length :=
  ⟨rfl, load_history_result_nonempty (some [some 1, some 2]) [1] rfl⟩

/-- C5 (amended): appending a session to any existing non-empty store of
averages and then loading history returns exactly the prior averages, intact
and in order, while the appended session average, rounded to one decimal by
the :.1f formatting of src line 192, sits in the store as the trailing entry
that load_history excludes. -/
theorem save_load_roundtrip (P : List ℚ) (results : List ℚ) (a : ℚ)
    (h : P ≠ []) :
    save_results (some (P.map some)) results a
      = P.map some ++ [some (round1 a)] ∧
    (save_results (some (P.map some)) results a).getLast?
      = some (some (round1 a)) ∧
    load_history (some (save_results (some (P.map some)) results a))
      = some P := by
  refine ⟨rfl, by simp [save_results], ?_⟩
  simp only [load_history, save_results, Option.getD_some]
  rw [List.filterMap_append]
  simp only [List.filterMap_some, List.filterMap_cons, List.filterMap_nil, id]
  have hP : 0 < P.length := List.length_pos.mpr h
  rw [if_pos (by simp; omega)]
  simp

/-- Witness for C5 at the concrete prior store [50] and new average 60. -/
theorem save_load_roundtrip_witness :
    save_results (some ([(50 : ℚ)].map some)) [100] 60
        = [(50 : ℚ)].map some ++ [some (round1 60)] ∧
    (save_results (some ([(50 : ℚ)].map some)) [100] 60).getLast?
        = some (some (round1 60)) ∧
    load_history (some (save_results (some ([(50 : ℚ)].map some)) [100] 60))
        = some [50] :=
  save_load_roundtrip [50] [100] 60 (by simp)

/-- C5 counterexample to the claim as stated: a session average of 155.25 ms
(exactly representable as a double, e.g. the one-trial session [155.25]) is
stored by the :.1f formatting of src line 192 as 155.2, so the trailing
entry of the store is not the exact session average. -/
theorem save_results_exact_average_counterexample :
    (save_results (some ([(50 : ℚ)].map some)) [621/4] (621/4)).getLast?
      = some (some (776/5)) ∧
    ¬ (save_results (some ([(50 : ℚ)].map some)) [621/4] (621/4)).getLast?
      = some (some ((621 : ℚ)/4)) := by
  constructor
  · norm_num [save_results, round1, round_half_even]
  · norm_num [save_results, round1, round_half_even]

/-- Neither learning-effect insight ever comes from the time-of-day block. -/
lemma learning_not_mem_time (hour : ℕ) :
    Insight.practiceEffect ∉ time_insight hour ∧
    Insight.fatigueEffect ∉ time_insight hour := by
  unfold time_insight
  split_ifs <;> simp

/-- The variability block never produces a learning-effect insight. -/
lemma variability_ne_learning (r : ℚ) (rs : List ℚ) :
    variability_insight r rs ≠ Insight.practiceEffect ∧
    variability_insight r rs ≠ Insight.fatigueEffect := by
  simp only [variability_insight]
  split_ifs <;> simp

/-- Membership in the learning-effect block output matches the strict
half-average comparisons of src lines 50-53. -/
lemma mem_learning_iff (l : List ℚ) :
    (Insight.practiceEffect ∈ learning_insight l
      ↔ secondHalfAvg l < firstHalfAvg l - 15) ∧
    (Insight.fatigueEffect ∈ learning_insight l
      ↔ firstHalfAvg l + 15 < secondHalfAvg l) := by
  unfold learning_insight
  split_ifs with h1 h2 <;> constructor <;> simp_all <;> linarith

/-- C1 (amended): for every trial sequence of length at least 2, the analysis
splits off a first half of floor(n/2) trials (the rest, including the extra
trial on odd counts, form the second half), and emits the practice-effect
insight exactly when the second-half average is MORE than 15 ms below the
first-half average, and the fatigue-effect insight exactly when it is more
than 15 ms above it (strict comparisons; a difference of exactly 15 ms emits
no insight). -/
theorem get_interpretation_practice_fatigue (avg_rt : ℚ)
    (time_of_day hour : ℕ) (l : List ℚ) (h : 2 ≤ l.length) :
    ∃ ins, get_interpretation avg_rt time_of_day l hour = some ins ∧
      (Insight.practiceEffect ∈ ins
        ↔ secondHalfAvg l < firstHalfAvg l - 15) ∧
      (Insight.fatigueEffect ∈ ins
        ↔ firstHalfAvg l + 15 < secondHalfAvg l) ∧
      (l.take (l.length / 2)).length = l.length / 2 ∧
      (l.drop (l.length / 2)).length = l.length - l.length / 2 ∧
      l.take (l.length / 2) ++ l.drop (l.length / 2) = l := by
  match l, h with
  | r :: rs, h =>
      have hlen : ¬((r :: rs).length / 2 = 0) := by
        simp only [List.length_cons] at h ⊢
        omega
      refine ⟨time_insight hour ++ [variability_insight r rs]
        ++ learning_insight (r :: rs), ?_, ?_, ?_, ?_, ?_, ?_⟩
      · simp only [get_interpretation, if_neg hlen]
      · simp only [List.mem_append, List.mem_singleton,
          (learning_not_mem_time hour).1, false_or,
          (mem_learning_iff (r :: rs)).1]
        have hv := (variability_ne_learning r rs).1
        constructor
        · rintro (hcase | hcase)
          · exact absurd hcase.symm hv
          · exact hcase
        · intro hcase
          exact Or.inr hcase
      · simp only [List.mem_append, List.mem_singleton,
          (learning_not_mem_time hour).2, false_or,
          (mem_learning_iff (r :: rs)).2]
        have hv := (variability_ne_learning r rs).2
        constructor
        · rintro (hcase | hcase)
          · exact absurd hcase.symm hv
          · exact hcase
        · intro hcase
          exact Or.inr hcase
      · simp only [List.length_take]
        omega
      · simp only [List.length_drop]
      · exact List.take_append_drop _ _

/-- Witness for C1 at the concrete session [200, 100] ms, hour 12. -/
theorem get_interpretation_practice_fatigue_witness :
    ∃ ins, get_interpretation 150 12 [(200 : ℚ), 100] 12 = some ins ∧
      (Insight.practiceEffect ∈ ins
        ↔ secondHalfAvg [(200 : ℚ), 100]
          < firstHalfAvg [(200 : ℚ), 100] - 15) ∧
      (Insight.fatigueEffect ∈ ins
        ↔ firstHalfAvg [(200 : ℚ), 100] + 15
          < secondHalfAvg [(200 : ℚ), 100]) ∧
      ([(200 : ℚ), 100].take ([(200 : ℚ), 100].length / 2)).length
        = [(200 : ℚ), 100].length / 2 ∧
      ([(200 : ℚ), 100].drop ([(200 : ℚ), 100].length / 2)).length
        = [(200 : ℚ), 100].length - [(200 : ℚ), 100].length / 2 ∧
      [(200 : ℚ), 100].take ([(200 : ℚ), 100].length / 2)
        ++ [(200 : ℚ), 100].drop ([(200 : ℚ), 100].length / 2)
        = [(200 : ℚ), 100] :=
  get_interpretation_practice_fatigue 150 12 12 [200, 100] (by simp)

/-- C1 counterexample to the claim as stated: on trials [115, 100] ms the
second-half average (100) is exactly 15 ms faster than the first-half
average (115), yet the code emits no practice-effect insight (the
comparison on src line 50 is strict). -/
theorem practice_fatigue_boundary_counterexample :
    firstHalfAvg [115, 100] - secondHalfAvg [115, 100] = 15 ∧
    get_interpretation (215/2) 12 [115, 100] 12
      = some [Insight.veryConsistent] ∧
    Insight.practiceEffect ∉ [Insight.veryConsistent] := by
  refine ⟨by norm_num [firstHalfAvg, secondHalfAvg], ?_, by simp⟩
  norm_num [get_interpretation, time_insight, variability_insight,
    learning_insight, firstHalfAvg, secondHalfAvg, listMax, listMin]

/-- C3: on every non-empty trial list the variability block picks its insight
by strict thresholds on variability = max - min: below 30 very consistent,
from 30 up to below 60 normal, from 60 up high; variability exactly 30 falls
in the normal bucket and exactly 60 in the high bucket; and whenever
get_interpretation returns insights, the chosen variability insight is
among them. -/
theorem variability_insight_thresholds :
    (∀ (r : ℚ) (rs : List ℚ),
      (variability_insight r rs = Insight.veryConsistent
        ↔ listMax r rs - listMin r rs < 30) ∧
      (variability_insight r rs = Insight.normalVariability
        ↔ 30 ≤ listMax r rs - listMin r rs
          ∧ listMax r rs - listMin r rs < 60) ∧
      (variability_insight r rs = Insight.highVariability
        ↔ 60 ≤ listMax r rs - listMin r rs)) ∧
    variability_insight 0 [30] = Insight.normalVariability ∧
    variability_insight 0 [60] = Insight.highVariability ∧
    (∀ (avg_rt : ℚ) (time_of_day hour : ℕ) (r : ℚ) (rs : List ℚ)
      (ins : List Insight),
      get_interpretation avg_rt time_of_day (r :: rs) hour = some ins →
      variability_insight r rs ∈ ins) := by
  refine ⟨?_, by norm_num [variability_insight, listMax, listMin],
    by norm_num [variability_insight, listMax, listMin], ?_⟩
  · intro r rs
    simp only [variability_insight]
    split_ifs with h1 h2 <;> refine ⟨?_, ?_, ?_⟩ <;> simp <;>
      first
        | linarith
        | (constructor <;> linarith)
        | (intros; linarith)
  · intro avg_rt time_of_day hour r rs ins h
    simp only [get_interpretation] at h
    split at h
    · cases h
    · cases h
      simp

/-- Witness for C3: the variability insight chosen for [150, 160] appears in
the insights returned by get_interpretation on that session. -/
theorem variability_insight_thresholds_witness :
    variability_insight 150 [160] ∈ [Insight.veryConsistent] :=
  variability_insight_thresholds.2.2.2 155 12 12 150 [160]
    [Insight.veryConsistent]
    (by norm_num [get_interpretation, time_insight, variability_insight,
      learning_insight, firstHalfAvg, secondHalfAvg, listMax, listMin])

/-- C6: end-to-end statistics on the session [150, 160, 155, 158, 152] ms:
average 155, bucket (99, Exceptional), variability 10, halves [150, 160] and
[155, 158, 152] both averaging 155, and the only insight at hour 12 is the
very-consistent one (no practice or fatigue insight). -/
theorem end_to_end_demo_session :
    session_average [150, 160, 155, 158, 152] = 155 ∧
    calculate_percentile (session_average [150, 160, 155, 158, 152])
      = (99, "Exceptional - faster than 99% of people") ∧
    listMax 150 [160, 155, 158, 152] - listMin 150 [160, 155, 158, 152]
      = 10 ∧
    [(150 : ℚ), 160, 155, 158, 152].take
      ([(150 : ℚ), 160, 155, 158, 152].length / 2) = [150, 160] ∧
    [(150 : ℚ), 160, 155, 158, 152].drop
      ([(150 : ℚ), 160, 155, 158, 152].length / 2) = [155, 158, 152] ∧
    firstHalfAvg [150, 160, 155, 158, 152] = 155 ∧
    secondHalfAvg [150, 160, 155, 158, 152] = 155 ∧
    get_interpretation 155 12 [150, 160, 155, 158, 152] 12
      = some [Insight.veryConsistent] := by
  refine ⟨by norm_num [session_average], ?_,
    by norm_num [listMax, listMin], rfl, rfl,
    by norm_num [firstHalfAvg], by norm_num [secondHalfAvg], ?_⟩
  · norm_num [session_average, calculate_percentile]
  · norm_num [get_interpretation, time_insight, variability_insight,
      learning_insight, firstHalfAvg, secondHalfAvg, listMax, listMin]

/-- C8: with history available, the baseline comparison flags the session as
slower exactly when the difference of todays average over the historical
mean exceeds 10 ms, faster exactly when it is below -10 ms, and consistent
otherwise. -/
theorem history_comparison_flags (avg_rt : ℚ) (history : List ℚ)
    (h : history ≠ []) :
    (history_comparison avg_rt history = BaselineFlag.slower
      ↔ 10 < avg_rt - history.sum / (history.length : ℚ)) ∧
    (history_comparison avg_rt history = BaselineFlag.faster
      ↔ avg_rt - history.sum / (history.length : ℚ) < -10) ∧
    (history_comparison avg_rt history = BaselineFlag.consistent
      ↔ -10 ≤ avg_rt - history.sum / (history.length : ℚ)
        ∧ avg_rt - history.sum / (history.length : ℚ) ≤ 10) := by
  simp only [history_comparison]
  split_ifs with h1 h2 <;> refine ⟨?_, ?_, ?_⟩ <;> simp <;>
    first
      | linarith
      | (constructor <;> linarith)
      | (intros; linarith)

/-- Witness for C8: average 100 against lone prior session 50 is flagged
slower. -/
theorem history_comparison_flags_witness :
    history_comparison 100 [50] = BaselineFlag.slower :=
  ((history_comparison_flags 100 [50] (by simp)).1).mpr (by norm_num)

/-- C9: get_interpretation fails (raises ZeroDivisionError, modelled as
none) on every single-trial session, and succeeds on every session of at
least 2 trials. -/
theorem get_interpretation_single_trial_fails :
    (∀ (x avg_rt : ℚ) (time_of_day hour : ℕ),
      get_interpretation avg_rt time_of_day [x] hour = none) ∧
    (∀ (avg_rt : ℚ) (time_of_day hour : ℕ) (l : List ℚ), 2 ≤ l.length →
      ∃ ins, get_interpretation avg_rt time_of_day l hour = some ins) := by
  constructor
  · intro x avg_rt time_of_day hour
    simp [get_interpretation]
  · intro avg_rt time_of_day hour l h
    match l, h with
    | r :: rs, h =>
        have hlen : ¬((r :: rs).length / 2 = 0) := by
          simp only [List.length_cons] at h ⊢
          omega
        refine ⟨time_insight hour ++ [variability_insight r rs]
          ++ learning_insight (r :: rs), ?_⟩
        simp only [get_interpretation, if_neg hlen]

/-- Witness for C9 at the single trial [5] and the pair [5, 6]. -/
theorem get_interpretation_single_trial_fails_witness :
    get_interpretation 0 0 [(5 : ℚ)] 12 = none ∧
    ∃ ins, get_interpretation 0 0 [(5 : ℚ), 6] 12 = some ins :=
  ⟨get_interpretation_single_trial_fails.1 5 0 0 12,
   get_interpretation_single_trial_fails.2 0 0 12 [5, 6] (by simp)⟩

end ReactionTime
